import Mathlib

/-!
Verification of the influxdb-nodejs client (repository files: the client
facade, src/unnamed/part_000, and src/lib/http.js) against its
natural-language specification.

The embedding translates the JavaScript source into Lean:

* JavaScript values that flow through dynamically-typed checks (the
  timeout setter, object-key tests) are modelled by the inductive JsVal.
* The per-instance hidden state reached through internal(this) is
  modelled by explicit state records (ClientState, HTTPState) passed and
  returned by each operation.
* The write and query queues are JavaScript Set objects holding strings;
  a Set keeps insertion order and ignores an add of an element that is
  already present, which is modelled by a duplicate-free insertion list
  (setAdd below).
* EventEmitter emissions are modelled by returning the list of events an
  operation fires, in order.
* Code of this repository that is not under src/ (lib/influx.js,
  lib/reader.js, lib/schema.js) is modelled from the spec; every such
  definition carries a doc comment starting with: Modelled from the spec.
-/

/-- JavaScript runtime values, as far as the translated code inspects
them: numbers, strings, booleans, undefined and null.  The lodash
isNumber test used by the timeout setter in src/lib/http.js holds exactly
on numbers. -/
inductive JsVal where
  | num (n : Int)
  | str (s : String)
  | boolv (b : Bool)
  | undef
  | nullv
deriving DecidableEq

/-- Embeds the lodash isNumber check of src/lib/http.js line 40. -/
def isNumber : JsVal → Bool
  | .num _ => true
  | _ => false

/-- One backend endpoint as stored in opts.servers by the constructor
(src/unnamed/part_000 lines 64-71).  The JavaScript object initially has
no disabled key (an absent key is falsy), which is modelled by
disabled := false; the health checker later sets it. -/
structure Server where
  protocol : String
  host : String
  port : Option Int
  disabled : Bool
deriving DecidableEq

/-- The endpoint record returned by getServers: the server object with
the disabled key omitted (the lodash omit on line 142). -/
structure ServerInfo where
  protocol : String
  host : String
  port : Option Int
deriving DecidableEq

/-- Embeds lodash omit(server, disabled) from src/unnamed/part_000
line 142. -/
def omitDisabled (s : Server) : ServerInfo :=
  { protocol := s.protocol, host := s.host, port := s.port }

/-- Embeds JavaScript parseInt(str, 10) on an optional argument:
parseInt(undefined) is NaN (modelled as none); otherwise leading
whitespace is skipped, an optional sign read, and the leading decimal
digits parsed, NaN when there are none. -/
def jsParseInt (o : Option String) : Option Int :=
  match o with
  | none => none
  | some s =>
    let l := s.data.dropWhile (fun c => c.isWhitespace)
    let signAndRest : Int × List Char :=
      match l with
      | '-' :: t => (-1, t)
      | '+' :: t => (1, t)
      | _ => (1, l)
    let ds := signAndRest.2.takeWhile (fun c => c.isDigit)
    if ds.isEmpty then none
    else some (signAndRest.1 *
      (ds.foldl (fun acc c => acc * 10 + (c.toNat - '0'.toNat)) 0 : Nat))

/-- Embeds the server-list construction of the client constructor
(src/unnamed/part_000 lines 64-71): the host group of the connection
string is split on commas, each segment split on a colon into host and
port; every server starts with protocol from the protocol group and no
disabled flag. -/
def mkServers (protocol hostGroup : String) : List Server :=
  (hostGroup.splitOn ",").map (fun str =>
    let arr := str.splitOn ":"
    { protocol := protocol
      host := arr.headD ""
      port := jsParseInt arr[1]?
      disabled := false })

/-- The endpoints as parsed from the connection string, before any
availability information exists: protocol, host and port of every
comma-separated segment of the host group. -/
def parsedEndpoints (protocol hostGroup : String) : List ServerInfo :=
  (hostGroup.splitOn ",").map (fun str =>
    let arr := str.splitOn ":"
    { protocol := protocol
      host := arr.headD ""
      port := jsParseInt arr[1]? })

/-- Client-level option defaults stored in internal(this).options
(src/unnamed/part_000 line 86): the query format and epoch, both absent
initially. -/
structure ClientOptions where
  format : Option String := none
  epoch : Option String := none
deriving DecidableEq

/-- The hidden per-instance state installed by the Client constructor
(src/unnamed/part_000 lines 81-86): the parsed server pool, the two
queues (JavaScript Sets of serialized strings, modelled as duplicate-free
insertion-ordered lists) and the option defaults. -/
structure ClientState where
  servers : List Server
  writeQueue : List String
  queryQueue : List String
  options : ClientOptions
deriving DecidableEq

/-- Embeds JavaScript Set.prototype.add on a set of strings: adding an
element that is already present leaves the set unchanged, otherwise the
element is appended in insertion order. -/
def setAdd (q : List String) (x : String) : List String :=
  if x ∈ q then q else q ++ [x]

/-- Embeds the writeQueueLength getter (src/unnamed/part_000 lines
271-273): the size of the write-queue Set. -/
def writeQueueLength (c : ClientState) : Nat :=
  c.writeQueue.length

/-- Embeds the queryQueueLength getter (src/unnamed/part_000 lines
289-291). -/
def queryQueueLength (c : ClientState) : Nat :=
  c.queryQueue.length

/-- Events emitted on the client EventEmitter: emit of queue with a kind
and the payload, emit of writeQueue, emit of queryQueue. -/
inductive ClientEvent where
  | queueEv (kind : String) (data : String)
  | writeQueueEv (data : String)
  | queryQueueEv (data : String)
deriving DecidableEq

/-- Embeds the enqueue callback the client installs in the writer it
creates (src/unnamed/part_000 lines 561-565): add the serialized data to
the write-queue Set, then synchronously emit queue (kind write) and
writeQueue carrying the payload.  Returns the new state and the emitted
events in order. -/
def writeEnqueue (c : ClientState) (data : String) :
    ClientState × List ClientEvent :=
  ({ c with writeQueue := setAdd c.writeQueue data },
   [.queueEv "write" data, .writeQueueEv data])

/-- Embeds the enqueue callback the client installs in the reader it
creates (src/unnamed/part_000 lines 584-588): add to the query-queue Set,
then synchronously emit queue (kind query) and queryQueue. -/
def queryEnqueue (c : ClientState) (data : String) :
    ClientState × List ClientEvent :=
  ({ c with queryQueue := setAdd c.queryQueue data },
   [.queueEv "query" data, .queryQueueEv data])

/-- Embeds syncWrite (src/unnamed/part_000 lines 694-701): the queue Set
is captured into an array and cleared, both before influx.write is
invoked on the captured array.  Returns the captured batch, the state
after the capture (the state in which the network call then runs; no
rejection handler ever modifies it) and the events emitted by the method
itself (none). -/
def syncWrite (c : ClientState) :
    List String × ClientState × List ClientEvent :=
  (c.writeQueue, { c with writeQueue := [] }, [])

/-- Embeds syncQuery (src/unnamed/part_000 lines 734-755): the query
queue is captured into an array and cleared before influx.query runs on
the captured statements joined with semicolons.  As for syncWrite, the
result handlers only reshape the response and never touch the queue.
Returns the captured batch, the post-capture state and the events the
method emits (none). -/
def syncQuery (c : ClientState) :
    List String × ClientState × List ClientEvent :=
  (c.queryQueue, { c with queryQueue := [] }, [])

/-- The statement text one syncQuery sends: the captured statements
joined with semicolons (src/unnamed/part_000 line 740). -/
def syncQueryStatement (c : ClientState) : String :=
  String.intercalate ";" (syncQuery c).1

/-- The client state after a syncWrite whose network call failed (for
example with no available backend): the source clears the Set before
influx.write and installs no rejection handler, so the failed flush
leaves exactly the post-capture state. -/
def syncWriteStateAfterFailure (c : ClientState) : ClientState :=
  (syncWrite c).2.1

/-- Modelled from the spec: lib/influx.js is not under src/.  Per spec
section 4.6, a flush whose captured set is empty performs zero network
calls and resolves immediately; otherwise the flush issues exactly one
network exchange carrying all captured operations.  This definition
counts the network calls influx.write makes for a captured batch. -/
def influxWriteNetworkCalls (arr : List String) : Nat :=
  if arr.isEmpty then 0 else 1

/-- Modelled from the spec: lib/influx.js is not under src/.  Per spec
section 4.6, the query flush sends the joined statement text in one
request, and an empty capture performs zero network calls. -/
def influxQueryNetworkCalls (q : String) : Nat :=
  if q.isEmpty then 0 else 1

/-- Network calls performed by one syncWrite invocation: influx.write
applied to the captured batch. -/
def syncWriteNetworkCalls (c : ClientState) : Nat :=
  influxWriteNetworkCalls (syncWrite c).1

/-- Network calls performed by one syncQuery invocation: influx.query
applied to the joined captured statements. -/
def syncQueryNetworkCalls (c : ClientState) : Nat :=
  influxQueryNetworkCalls (syncQueryStatement c)

/-- A sequence of enqueues through writer builders, in order. -/
def enqueueAllWrites (c : ClientState) (ops : List String) : ClientState :=
  ops.foldl (fun s d => (writeEnqueue s d).1) c

/-- A sequence of enqueues through reader builders, in order. -/
def enqueueAllQueries (c : ClientState) (ops : List String) : ClientState :=
  ops.foldl (fun s d => (queryEnqueue s d).1) c

/-- Embeds getServers (src/unnamed/part_000 lines 135-143): filter the
pool by the availability argument (available keeps servers whose
disabled flag is falsy, otherwise keep servers whose disabled flag is
truthy), then omit the disabled key from every copy returned. -/
def getServers (servers : List Server) (available : Bool) :
    List ServerInfo :=
  (servers.filter (fun s => if available then !s.disabled else s.disabled)).map
    omitDisabled

/-- The getServers method on a client state. -/
def clientGetServers (c : ClientState) (available : Bool) :
    List ServerInfo :=
  getServers c.servers available

/-- The state of a freshly constructed client, given the protocol group
(result 1 of the connection-string regex) and the host group (result 3):
the parsed server pool, both queues empty, no option defaults
(src/unnamed/part_000 lines 62-87).  The auth and database groups do not
influence any state these claims observe. -/
def freshClientState (protocolGroup hostGroup : String) : ClientState :=
  { servers := mkServers protocolGroup hostGroup
    writeQueue := []
    queryQueue := []
    options := {} }

/-- The hidden state of an HTTP transport instance (src/lib/http.js):
the timeout, absent until the setter stores a number. -/
structure HTTPState where
  timeout : Option Int := none
deriving DecidableEq

/-- Embeds the HTTP timeout setter (src/lib/http.js lines 38-43): the
value is stored only when lodash isNumber holds; any other value is
ignored and no error is raised (the function is total). -/
def setHttpTimeout (s : HTTPState) (v : JsVal) : HTTPState :=
  match v with
  | .num n => { timeout := some n }
  | _ => s

/-- Embeds the HTTP timeout getter (src/lib/http.js lines 48-50): the
JavaScript expression reads stored-or-zero, where an absent value and a
stored zero are both falsy. -/
def getHttpTimeout (s : HTTPState) : Int :=
  match s.timeout with
  | some n => if n = 0 then 0 else n
  | none => 0

/-- An HTTP transport state on which the timeout was never set. -/
def initialHTTPState : HTTPState := {}

/-- Holds when a character list starts with a character that the
JavaScript regex class of non-whitespace accepts (the first character of
the fourth capture group, which needs at least one character). -/
def headNonSpace : List Char → Bool
  | [] => false
  | d :: _ => !d.isWhitespace

/-- Embeds the part of the connection-string regex that follows the
literal colon-slash-slash: an optional auth group, a lazily matched
non-whitespace group, a literal slash, and a final non-empty
non-whitespace group.  For match existence this reduces to: scanning
only non-whitespace characters, find a slash that is preceded by at
least one scanned character (seen) and followed by a non-whitespace
character; the optional auth group and the laziness of the quantifiers
affect which match is chosen, never whether one exists, because every
group is a run of non-whitespace characters. -/
def seek : Bool → List Char → Bool
  | _, [] => false
  | seen, c :: rest =>
    if c.isWhitespace then false
    else if seen && c == '/' && headNonSpace rest then true
    else seek true rest

/-- Holds when the character c, with the given rest of the input after
it, is a place where the connection-string regex can match: c is a
non-whitespace character (the last character of the protocol group), the
rest starts with the literal colon-slash-slash, and the remainder admits
the host/database part. -/
def sepHit (c : Char) (rest : List Char) : Bool :=
  match rest with
  | r1 :: r2 :: r3 :: tail =>
    r1 == ':' && r2 == '/' && r3 == '/' && !c.isWhitespace && seek false tail
  | _ => false

/-- Embeds match existence for the connection-string regex of the Client
constructor (src/unnamed/part_000 line 54) on a character list: the
regex is unanchored, so the scan tries every position.  A backtracking
regex matches an input exactly when some decomposition of the input fits
it, so match existence is insensitive to the laziness of the
quantifiers; each capture group is a non-empty run of non-whitespace
characters, so whenever a match exists the groups one, three and four
are non-empty strings and therefore truthy. -/
def scanUri : List Char → Bool
  | [] => false
  | c :: rest => sepHit c rest || scanUri rest

/-- Embeds the throw test of the Client constructor (src/unnamed/part_000
lines 53-61): construction succeeds exactly when the connection-string
regex matches, because the tested capture groups are non-empty whenever
a match exists. -/
def constructorOk (uri : String) : Bool :=
  scanUri uri.data

/-- Holds when a character list starts with the literal
colon-slash-slash. -/
def startsWithSep : List Char → Bool
  | r1 :: r2 :: r3 :: _ => r1 == ':' && r2 == '/' && r3 == '/'
  | _ => false

/-- Holds when the literal colon-slash-slash occurs somewhere in the
character list; a connection string with no such occurrence has no
protocol part. -/
def hasProtoSep : List Char → Bool
  | [] => false
  | c :: rest => startsWithSep (c :: rest) || hasProtoSep rest

/-- Modelled from the spec: lib/reader.js is not under src/.  Per spec
section 3, the reader builder accumulates a QuerySpec including the
format and epoch preferences; set stores one key-value preference on the
builder itself, so later client mutations cannot affect it. -/
structure Reader where
  measurement : String
  settings : List (String × String)
deriving DecidableEq

/-- Modelled from the spec: the reader set operation of lib/reader.js,
which records a preference on the builder (spec section 4.5). -/
def readerSet (r : Reader) (k v : String) : Reader :=
  { r with settings := r.settings ++ [(k, v)] }

/-- The preference a reader carries for a key: the first stored value. -/
def readerSetting (r : Reader) (k : String) : Option String :=
  r.settings.lookup k

/-- A JavaScript truthiness filter on an optional string: undefined and
the empty string are falsy, every other string is truthy. -/
def truthyStr : Option String → Option String
  | none => none
  | some s => if s = "" then none else some s

/-- Applies one conditional copy of a client default onto a reader: the
value is stored only when it is truthy (the two if statements of
src/unnamed/part_000 lines 590-597). -/
def applySet (r : Reader) (k : String) (o : Option String) : Reader :=
  match o with
  | some v => readerSet r k v
  | none => r

/-- Embeds Client.query (src/unnamed/part_000 lines 581-599): a fresh
reader is created for the measurement, then the client-level format and
epoch defaults are copied onto it via set, each only when truthy.  The
enqueue callback is modelled separately by queryEnqueue. -/
def clientQuery (c : ClientState) (m : String) : Reader :=
  applySet
    (applySet { measurement := m, settings := [] }
      "format" (truthyStr c.options.format))
    "epoch" (truthyStr c.options.epoch)

/-- Embeds the format setter (src/unnamed/part_000 lines 217-219). -/
def clientSetFormat (c : ClientState) (f : String) : ClientState :=
  { c with options := { c.options with format := some f } }

/-- Embeds the epoch setter (src/unnamed/part_000 lines 241-243). -/
def clientSetEpoch (c : ClientState) (e : String) : ClientState :=
  { c with options := { c.options with epoch := some e } }

/-- A JavaScript object as far as the schema dispatch inspects it: a
list of own properties. -/
def JsObj : Type := List (String × JsVal)

instance : DecidableEq JsObj := by
  unfold JsObj
  infer_instance

/-- Embeds the lodash has(obj, key) test of src/unnamed/part_000
line 839 on an optional object: false on undefined, otherwise an
own-property test. -/
def hasKeyOpt (o : Option JsObj) (k : String) : Bool :=
  match o with
  | none => false
  | some l => l.any (fun p => p.1 == k)

/-- One registered schema declaration: the field schema and the two
optional trailing arguments as the registry stores them. -/
structure SchemaDef where
  fieldSchema : JsObj
  tagSchema : Option JsObj
  options : Option JsObj
deriving DecidableEq

/-- Modelled from the spec: lib/schema.js is not under src/.  Per spec
section 4.3, register stores the declaration for a measurement,
replacing any prior one. -/
def schemaSet (store : List (String × SchemaDef)) (m : String)
    (fs : JsObj) (tg op : Option JsObj) : List (String × SchemaDef) :=
  (m, ⟨fs, tg, op⟩) :: store.filter (fun p => !(p.1 == m))

/-- Modelled from the spec: the lookup half of lib/schema.js, returning
the declaration stored for a measurement, if any. -/
def schemaGet (store : List (String × SchemaDef)) (m : String) :
    Option SchemaDef :=
  store.lookup m

/-- Embeds Client.schema (src/unnamed/part_000 lines 833-844): with a
falsy field schema the stored declaration is returned and nothing is
modified; otherwise, when the third argument carries a stripUnknown key
the two trailing arguments are swapped (the third becomes the options,
the fourth the tag schema), and the declaration is registered.  Returns
the lookup result together with the registry after the call. -/
def clientSchema (store : List (String × SchemaDef)) (m : String)
    (fieldSchema : Option JsObj) (tgs opts : Option JsObj) :
    Option SchemaDef × List (String × SchemaDef) :=
  match fieldSchema with
  | none => (schemaGet store m, store)
  | some fs =>
    let tagSchema := if hasKeyOpt tgs "stripUnknown" then opts else tgs
    let options := if hasKeyOpt tgs "stripUnknown" then tgs else opts
    (none, schemaSet store m fs tagSchema options)

/-- A concrete client state holding one queued write, used to exhibit
the behaviour of a failed flush. -/
def c1ExampleState : ClientState :=
  { servers := []
    writeQueue := ["cpu,host=a use=300i"]
    queryQueue := []
    options := {} }

lemma mem_setAdd_of_mem {q : List String} {x y : String} (h : x ∈ q) :
    x ∈ setAdd q y := by
  unfold setAdd
  split
  · exact h
  · exact List.mem_append_left _ h

lemma mem_setAdd_self (q : List String) (x : String) : x ∈ setAdd q x := by
  unfold setAdd
  split
  · assumption
  · exact List.mem_append_right _ (List.mem_singleton.mpr rfl)

lemma enqueueAllWrites_writeQueue_mono {x : String} :
    ∀ (ops : List String) (c : ClientState),
      x ∈ c.writeQueue → x ∈ (enqueueAllWrites c ops).writeQueue := by
  intro ops
  induction ops with
  | nil => intro c h; exact h
  | cons d t ih =>
    intro c h
    exact ih _ (mem_setAdd_of_mem h)

lemma enqueueAllQueries_queryQueue_mono {x : String} :
    ∀ (ops : List String) (c : ClientState),
      x ∈ c.queryQueue → x ∈ (enqueueAllQueries c ops).queryQueue := by
  intro ops
  induction ops with
  | nil => intro c h; exact h
  | cons d t ih =>
    intro c h
    exact ih _ (mem_setAdd_of_mem h)

/-- C1 (counterexample): the claim that after a failed syncWrite the
write queue still reports its prior length is false on the code.  On a
client whose write queue holds one operation, syncWrite clears the Set
before invoking influx.write, so after the failed flush the reported
length is 0, not 1. -/
theorem failed_syncWrite_length_counterexample :
    writeQueueLength (syncWriteStateAfterFailure c1ExampleState) ≠
      writeQueueLength c1ExampleState := by
  decide

/-- C1 (amended): after a syncWrite whose flush fails, the write queue
does not retain the previously queued operations; the queue was cleared
when the batch was captured and the source installs no rejection handler
that would re-insert it, so the queue is empty afterwards (apart from
operations enqueued later). -/
theorem failed_syncWrite_clears_queue :
    ∀ c : ClientState,
      writeQueueLength (syncWriteStateAfterFailure c) = 0 := by
  intro c
  rfl

/-- C2: enqueuing an operation whose serialized string is byte-identical
to one already in the queue leaves the client state unchanged, on both
queues; in particular enqueuing the same serialized write twice starting
from an empty write queue leaves writeQueueLength equal to 1. -/
theorem enqueue_dedup :
    ∀ (c : ClientState) (x : String) (srv : List Server)
      (qq : List String) (o : ClientOptions),
      (x ∈ c.writeQueue → (writeEnqueue c x).1 = c)
      ∧ (x ∈ c.queryQueue → (queryEnqueue c x).1 = c)
      ∧ writeQueueLength
          (writeEnqueue (writeEnqueue ⟨srv, [], qq, o⟩ x).1 x).1 = 1 := by
  intro c x srv qq o
  refine ⟨?_, ?_, ?_⟩
  · intro h
    simp [writeEnqueue, setAdd, h]
  · intro h
    simp [queryEnqueue, setAdd, h]
  · simp [writeEnqueue, setAdd, writeQueueLength]

/-- C2 (witness): a concrete instance of the deduplication theorem, on a
client whose write queue already holds the serialized operation. -/
theorem enqueue_dedup_witness :
    ("m f=1" ∈ (⟨[], ["m f=1"], ["q one"], {}⟩ : ClientState).writeQueue
      ∧ (writeEnqueue (⟨[], ["m f=1"], ["q one"], {}⟩ : ClientState)
          "m f=1").1 = ⟨[], ["m f=1"], ["q one"], {}⟩)
    ∧ ("q one" ∈ (⟨[], ["m f=1"], ["q one"], {}⟩ : ClientState).queryQueue
      ∧ (queryEnqueue (⟨[], ["m f=1"], ["q one"], {}⟩ : ClientState)
          "q one").1 = ⟨[], ["m f=1"], ["q one"], {}⟩) :=
  ⟨⟨by decide,
    (enqueue_dedup ⟨[], ["m f=1"], ["q one"], {}⟩ "m f=1" [] [] {}).1
      (by decide)⟩,
   ⟨by decide,
    (enqueue_dedup ⟨[], ["m f=1"], ["q one"], {}⟩ "q one" [] [] {}).2.1
      (by decide)⟩⟩

/-- C3: a flush captures and clears the whole pending set before the
network call starts, so an operation enqueued after the capture (while
the network exchange is in flight) is not part of the captured batch
(provided its serialized form was not already queued before the flush),
and is part of the batch of the next flush, whatever else is enqueued in
between.  This holds for the write queue and the query queue alike. -/
theorem flush_capture_isolation :
    ∀ (c : ClientState) (x : String) (later : List String),
      ((x ∉ c.writeQueue → x ∉ (syncWrite c).1)
        ∧ x ∈ (syncWrite (enqueueAllWrites
            (writeEnqueue (syncWrite c).2.1 x).1 later)).1)
      ∧ ((x ∉ c.queryQueue → x ∉ (syncQuery c).1)
        ∧ x ∈ (syncQuery (enqueueAllQueries
            (queryEnqueue (syncQuery c).2.1 x).1 later)).1) := by
  intro c x later
  refine ⟨⟨fun h => h, ?_⟩, ⟨fun h => h, ?_⟩⟩
  · apply enqueueAllWrites_writeQueue_mono later
    show x ∈ setAdd (syncWrite c).2.1.writeQueue x
    exact mem_setAdd_self _ _
  · apply enqueueAllQueries_queryQueue_mono later
    show x ∈ setAdd (syncQuery c).2.1.queryQueue x
    exact mem_setAdd_self _ _

/-- C3 (witness): a concrete instance, on a client with one unrelated
write and one unrelated query pending: the freshly enqueued operation is
absent from the captured batch and present in the next one. -/
theorem flush_capture_isolation_witness :
    ("x f=2" ∉ (⟨[], ["a f=1"], ["q0"], {}⟩ : ClientState).writeQueue
      ∧ "x f=2" ∉ (syncWrite (⟨[], ["a f=1"], ["q0"], {}⟩ : ClientState)).1)
    ∧ ("q9" ∉ (⟨[], ["a f=1"], ["q0"], {}⟩ : ClientState).queryQueue
      ∧ "q9" ∉ (syncQuery (⟨[], ["a f=1"], ["q0"], {}⟩ : ClientState)).1) :=
  ⟨⟨by decide,
    (flush_capture_isolation ⟨[], ["a f=1"], ["q0"], {}⟩ "x f=2"
      ["b f=3"]).1.1 (by decide)⟩,
   ⟨by decide,
    (flush_capture_isolation ⟨[], ["a f=1"], ["q0"], {}⟩ "q9"
      ["q10"]).2.1 (by decide)⟩⟩

/-- C4: a flush that finds its pending queue empty performs zero network
calls (and therefore resolves immediately), for syncWrite and syncQuery
alike, whatever the rest of the client state holds. -/
theorem empty_flush_no_network :
    ∀ (srv : List Server) (wq qq : List String) (o : ClientOptions),
      syncWriteNetworkCalls ⟨srv, [], qq, o⟩ = 0
      ∧ syncQueryNetworkCalls ⟨srv, wq, [], o⟩ = 0 := by
  intro srv wq qq o
  exact ⟨rfl, rfl⟩

/-- C5: every enqueue through a writer builder synchronously emits the
queue event with kind write and the serialized payload followed by the
writeQueue event with the payload; every enqueue through a reader
builder emits queue with kind query followed by queryQueue; and neither
syncWrite nor syncQuery emits any event. -/
theorem enqueue_events :
    ∀ (c : ClientState) (data : String),
      (writeEnqueue c data).2 =
        [ClientEvent.queueEv "write" data, ClientEvent.writeQueueEv data]
      ∧ (queryEnqueue c data).2 =
        [ClientEvent.queueEv "query" data, ClientEvent.queryQueueEv data]
      ∧ (syncWrite c).2.2 = [] ∧ (syncQuery c).2.2 = [] := by
  intro c data
  exact ⟨rfl, rfl, rfl, rfl⟩

/-- C6: on a freshly constructed client no server carries an
availability flag yet, so getServers true returns every endpoint parsed
from the connection string; and on every pool state, getServers returns
exactly the omitted copies of the servers whose disabled flag matches
the argument (available selects the not-disabled servers, unavailable
the disabled ones). -/
theorem getServers_spec :
    ∀ (protocolGroup hostGroup : String) (servers : List Server)
      (available : Bool) (x : ServerInfo),
      clientGetServers (freshClientState protocolGroup hostGroup) true =
        parsedEndpoints protocolGroup hostGroup
      ∧ (x ∈ getServers servers available ↔
          ∃ s, s ∈ servers ∧ s.disabled = !available ∧ x = omitDisabled s) := by
  intro protocolGroup hostGroup servers available x
  constructor
  · have hall : ∀ s ∈ mkServers protocolGroup hostGroup,
        (if (true : Bool) then !s.disabled else s.disabled) = true := by
      intro s hs
      simp only [mkServers, List.mem_map] at hs
      obtain ⟨str, _, rfl⟩ := hs
      rfl
    show ((mkServers protocolGroup hostGroup).filter _).map omitDisabled =
      parsedEndpoints protocolGroup hostGroup
    rw [List.filter_eq_self.mpr hall, mkServers, parsedEndpoints,
      List.map_map]
    rfl
  · constructor
    · intro hx
      simp only [getServers, List.mem_map, List.mem_filter] at hx
      obtain ⟨s, ⟨hs, hpred⟩, rfl⟩ := hx
      refine ⟨s, hs, ?_, rfl⟩
      cases available <;> simpa using hpred
    · rintro ⟨s, hs, hd, rfl⟩
      simp only [getServers, List.mem_map, List.mem_filter]
      exact ⟨s, ⟨hs, by cases available <;> simp_all⟩, rfl⟩

/-- C8: the HTTP transport timeout setter stores only numbers, so
assigning a non-numeric value leaves the stored timeout unchanged and
raises no error (the operation is total); and reading the timeout on an
instance where it was never set returns 0. -/
theorem timeout_accessor_spec :
    ∀ (s : HTTPState) (v : JsVal),
      (isNumber v = false → setHttpTimeout s v = s)
      ∧ getHttpTimeout initialHTTPState = 0 := by
  intro s v
  refine ⟨?_, rfl⟩
  intro h
  cases v <;> first | rfl | simp [isNumber] at h

/-- C8 (witness): assigning a string to a transport whose timeout is
5 ms leaves the stored value at 5 ms. -/
theorem timeout_accessor_witness :
    isNumber (JsVal.str "fast") = false
    ∧ setHttpTimeout ⟨some 5⟩ (JsVal.str "fast") = ⟨some 5⟩ :=
  ⟨by decide,
   (timeout_accessor_spec ⟨some 5⟩ (JsVal.str "fast")).1 (by decide)⟩

/-- C9: a reader created after assigning the client-level format (or
epoch) default carries the newly assigned value (when it is truthy;
JavaScript skips the copy for the empty string), while a reader created
before the assignment carries exactly the defaults the client held at
its creation - readers are self-contained values, so a later mutation of
the client cannot change them. -/
theorem option_defaults_spec :
    ∀ (c : ClientState) (f e m : String),
      readerSetting (clientQuery (clientSetFormat c f) m) "format" =
        (if f = "" then none else some f)
      ∧ readerSetting (clientQuery (clientSetEpoch c e) m) "epoch" =
        (if e = "" then none else some e)
      ∧ readerSetting (clientQuery c m) "format" = truthyStr c.options.format
      ∧ readerSetting (clientQuery c m) "epoch" = truthyStr c.options.epoch := by
  intro c f e m
  refine ⟨?_, ?_, ?_, ?_⟩
  · rcases he : c.options.epoch with _ | ev
    · by_cases hf : f = "" <;>
        simp [clientQuery, clientSetFormat, truthyStr, applySet, readerSet,
          readerSetting, he, hf, List.lookup]
    · by_cases hf : f = "" <;> by_cases hev : ev = "" <;>
        simp [clientQuery, clientSetFormat, truthyStr, applySet, readerSet,
          readerSetting, he, hf, hev, List.lookup]
  · rcases hf : c.options.format with _ | fv
    · by_cases he : e = "" <;>
        simp [clientQuery, clientSetEpoch, truthyStr, applySet, readerSet,
          readerSetting, hf, he, List.lookup]
    · by_cases he : e = "" <;> by_cases hfv : fv = "" <;>
        simp [clientQuery, clientSetEpoch, truthyStr, applySet, readerSet,
          readerSetting, hf, he, hfv, List.lookup]
  · rcases hf : truthyStr c.options.format with _ | fv <;>
      rcases he : truthyStr c.options.epoch with _ | ev <;>
        simp [clientQuery, applySet, readerSet, readerSetting, hf, he,
          List.lookup]
  · rcases hf : truthyStr c.options.format with _ | fv <;>
      rcases he : truthyStr c.options.epoch with _ | ev <;>
        simp [clientQuery, applySet, readerSet, readerSetting, hf, he,
          List.lookup]

/-- C10: calling schema without a field schema returns the stored
declaration for the measurement and modifies nothing; calling it with a
field schema registers it, and when the third argument carries a
stripUnknown key the two trailing arguments are swapped (the third is
stored as the options, the fourth as the tag schema), otherwise they are
stored in declared order. -/
theorem schema_dispatch_spec :
    ∀ (store : List (String × SchemaDef)) (m : String)
      (tgs opts : Option JsObj) (fs : JsObj),
      clientSchema store m none tgs opts = (schemaGet store m, store)
      ∧ schemaGet (clientSchema store m (some fs) tgs opts).2 m =
          some ⟨fs, (if hasKeyOpt tgs "stripUnknown" then opts else tgs),
                (if hasKeyOpt tgs "stripUnknown" then tgs else opts)⟩ := by
  intro store m tgs opts fs
  refine ⟨rfl, ?_⟩
  simp [clientSchema, schemaSet, schemaGet, List.lookup]

lemma seek_true_append (l1 : List Char) (d : Char) (l2 : List Char)
    (h1 : ∀ a ∈ l1, a.isWhitespace = false) (hd : d.isWhitespace = false) :
    seek true (l1 ++ '/' :: d :: l2) = true := by
  induction l1 with
  | nil =>
    have hs : ('/').isWhitespace = false := by decide
    simp [seek, headNonSpace, hs, hd]
  | cons c t ih =>
    have hc : c.isWhitespace = false := h1 c (List.mem_cons_self c t)
    have ih' := ih (fun a ha => h1 a (List.mem_cons_of_mem c ha))
    simp [seek, hc, ih']

lemma seek_false_append (l1 : List Char) (d : Char) (l2 : List Char)
    (hne : l1 ≠ []) (h1 : ∀ a ∈ l1, a.isWhitespace = false)
    (hd : d.isWhitespace = false) :
    seek false (l1 ++ '/' :: d :: l2) = true := by
  cases l1 with
  | nil => exact absurd rfl hne
  | cons c t =>
    have hc : c.isWhitespace = false := h1 c (List.mem_cons_self c t)
    have h2 := seek_true_append t d l2
      (fun a ha => h1 a (List.mem_cons_of_mem c ha)) hd
    simp [seek, hc, h2]

lemma scanUri_append_hit (pre : List Char) (a : Char) (tail : List Char)
    (ha : a.isWhitespace = false) (ht : seek false tail = true) :
    scanUri (pre ++ a :: ':' :: '/' :: '/' :: tail) = true := by
  induction pre with
  | nil => simp [scanUri, sepHit, ha, ht]
  | cons c p ih => simp [scanUri, ih]

lemma seek_exists : ∀ (l : List Char) (seen : Bool), seek seen l = true →
    ∃ t1 d t2, l = t1 ++ '/' :: d :: t2
      ∧ (∀ a ∈ t1, a.isWhitespace = false)
      ∧ d.isWhitespace = false ∧ (seen = false → t1 ≠ []) := by
  intro l
  induction l with
  | nil => intro seen h; simp [seek] at h
  | cons c rest ih =>
    intro seen h
    simp only [seek] at h
    by_cases hw : c.isWhitespace = true
    · rw [if_pos hw] at h
      exact absurd h (by simp)
    · have hw' : c.isWhitespace = false := by
        revert hw; cases c.isWhitespace <;> simp
      rw [if_neg hw] at h
      by_cases hacc : (seen && c == '/' && headNonSpace rest) = true
      · rw [if_pos hacc] at h
        rw [Bool.and_eq_true, Bool.and_eq_true] at hacc
        obtain ⟨⟨hs, hcq⟩, hh⟩ := hacc
        have hc : c = '/' := by simpa using hcq
        cases rest with
        | nil => simp [headNonSpace] at hh
        | cons d t2 =>
          have hd : d.isWhitespace = false := by
            simpa [headNonSpace] using hh
          subst hc
          refine ⟨[], d, t2, rfl, by simp, hd, fun hf => ?_⟩
          rw [hf] at hs
          exact absurd hs (by simp)
      · rw [if_neg hacc] at h
        obtain ⟨t1, d, t2, heq, ht1, hd, _⟩ := ih true h
        refine ⟨c :: t1, d, t2, ?_, ?_, hd, fun _ => by simp⟩
        · rw [heq]
          rfl
        · intro a ha
          rcases List.mem_cons.mp ha with rfl | ha'
          · exact hw'
          · exact ht1 a ha'

lemma scanUri_exists : ∀ l : List Char, scanUri l = true →
    ∃ pre a tail, l = pre ++ a :: ':' :: '/' :: '/' :: tail
      ∧ a.isWhitespace = false ∧ seek false tail = true := by
  intro l
  induction l with
  | nil => intro h; simp [scanUri] at h
  | cons c rest ih =>
    intro h
    simp only [scanUri, Bool.or_eq_true] at h
    rcases h with hh | hh
    · rcases rest with _ | ⟨r1, rest1⟩
      · simp [sepHit] at hh
      rcases rest1 with _ | ⟨r2, rest2⟩
      · simp [sepHit] at hh
      rcases rest2 with _ | ⟨r3, tail⟩
      · simp [sepHit] at hh
      · simp only [sepHit, Bool.and_eq_true, beq_iff_eq] at hh
        obtain ⟨⟨⟨⟨h1, h2⟩, h3⟩, h4⟩, h5⟩ := hh
        subst h1; subst h2; subst h3
        exact ⟨[], c, tail, rfl, by simpa using h4, h5⟩
    · obtain ⟨pre, a, tail, heq, ha, ht⟩ := ih hh
      refine ⟨c :: pre, a, tail, ?_, ha, ht⟩
      rw [heq]
      rfl

lemma hasProtoSep_append (pre tail : List Char) :
    hasProtoSep (pre ++ ':' :: '/' :: '/' :: tail) = true := by
  induction pre with
  | nil => simp [hasProtoSep, startsWithSep]
  | cons c p ih => simp [hasProtoSep, ih]

lemma count_slash_of_scan (l : List Char) (h : scanUri l = true) :
    3 ≤ l.count '/' := by
  obtain ⟨pre, a, tail, heq, ha, ht⟩ := scanUri_exists l h
  obtain ⟨t1, d, t2, heq2, ht1, hd, hne⟩ := seek_exists tail false ht
  subst heq2
  subst heq
  simp [List.count_append, List.count_cons]
  split_ifs <;> omega

/-- C7: construction fails on a connection string that lacks any
protocol separator (the literal colon-slash-slash), and on one whose
slash budget cannot contain a database segment (a match needs the two
separator slashes plus the slash before the database, so at most two
slashes anywhere means no match - this covers a string such as
protocol-slash-slash-host with the database segment missing); an empty
host also fails, shown on the concrete string http:///mydb; and every
well-formed string of shape protocol, separator, host section (which may
carry auth and comma-separated host:port pairs - any non-empty run of
non-whitespace characters), slash, database constructs successfully. -/
theorem connection_string_spec :
    (∀ uri : String, hasProtoSep uri.data = false → constructorOk uri = false)
    ∧ (∀ uri : String, uri.data.count '/' ≤ 2 → constructorOk uri = false)
    ∧ constructorOk "http:///mydb" = false
    ∧ (∀ proto hostSection db : List Char,
        proto ≠ [] → (∀ a ∈ proto, a.isWhitespace = false) →
        hostSection ≠ [] → (∀ a ∈ hostSection, a.isWhitespace = false) →
        db ≠ [] → (∀ a ∈ db, a.isWhitespace = false) →
        constructorOk (String.mk
          (proto ++ ':' :: '/' :: '/' :: (hostSection ++ '/' :: db))) =
          true) := by
  refine ⟨?_, ?_, ?_, ?_⟩
  · intro uri h
    by_contra hc
    have hs : scanUri uri.data = true := by
      revert hc; unfold constructorOk; cases scanUri uri.data <;> simp
    obtain ⟨pre, a, tail, heq, ha, ht⟩ := scanUri_exists _ hs
    have hps : hasProtoSep uri.data = true := by
      rw [heq]
      have h2 := hasProtoSep_append (pre ++ [a]) tail
      simpa [List.append_assoc] using h2
    rw [hps] at h
    cases h
  · intro uri h
    by_contra hc
    have hs : scanUri uri.data = true := by
      revert hc; unfold constructorOk; cases scanUri uri.data <;> simp
    have h3 := count_slash_of_scan _ hs
    omega
  · decide
  · intro proto hostSection db hp hps hh hhs hdb hdbs
    rcases List.eq_nil_or_concat proto with rfl | ⟨p, a, rfl⟩
    · exact absurd rfl hp
    rcases db with _ | ⟨d, db'⟩
    · exact absurd rfl hdb
    have ha : a.isWhitespace = false := hps a (by simp)
    have hd : d.isWhitespace = false := hdbs d (by simp)
    have hseek : seek false (hostSection ++ '/' :: d :: db') = true :=
      seek_false_append hostSection d db' hh hhs hd
    have hhit := scanUri_append_hit p a (hostSection ++ '/' :: d :: db')
      ha hseek
    simpa [constructorOk, List.concat_eq_append, List.append_assoc]
      using hhit

/-- C7 (witness): concrete instances - a string with no protocol
separator fails, a string with no database segment fails, and a
well-formed string with auth and two host:port pairs succeeds. -/
theorem connection_string_witness :
    (hasProtoSep "localhost:8086/db".data = false
      ∧ constructorOk "localhost:8086/db" = false)
    ∧ ("http://127.0.0.1:8086".data.count '/' ≤ 2
      ∧ constructorOk "http://127.0.0.1:8086" = false)
    ∧ constructorOk (String.mk ("http".data ++ ':' :: '/' :: '/' ::
        ("user:pass@h1:8086,h2:8087".data ++ '/' :: "mydb".data))) = true :=
  ⟨⟨by decide, connection_string_spec.1 _ (by decide)⟩,
   ⟨by decide, connection_string_spec.2.1 _ (by decide)⟩,
   connection_string_spec.2.2.2 "http".data "user:pass@h1:8086,h2:8087".data
     "mydb".data (by decide) (by decide) (by decide) (by decide) (by decide)
     (by decide)⟩
